import Mathlib

/-!
Shallow embedding of the human-review subsystem of the guardrails-example
repository (src/guardrails/human_review.py), together with proofs about it.

Modelling conventions:
- `datetime` instants are natural numbers counting microseconds; the strftime
  format "%Y%m%d_%H%M%S" used by request-id generation has one-second
  granularity, so its output is modelled as a function of `t / 1000000` only.
- `asyncio.sleep(1)` advances the clock by `microsPerSec`; the wait loop is
  compiled to structural recursion on the number of remaining iterations,
  which for a loop guard `now < start + tsec * microsPerSec` with the clock
  advanced exactly once per iteration is `tsec` at entry.
- Python dicts are association lists; assignment replaces an existing binding
  in place or appends a fresh one.
- The `Any`-typed metadata values appearing in results are modelled by the
  closed inductive `MetaVal`.
- The external reviewer is modelled as a schedule: at each poll interval it
  may issue one completion call against the waited-on request.
-/

/-- Status of a human review (enum ReviewStatus). -/
inductive ReviewStatus where
  | pending
  | approved
  | rejected
  | escalated
  | timeout
deriving DecidableEq, Repr

/-- Severity levels for guardrail violations (enum GuardrailSeverity). -/
inductive GuardrailSeverity where
  | low
  | medium
  | high
  | critical
deriving DecidableEq, Repr

/-- A metadata value (the dynamically typed values stored in result metadata). -/
inductive MetaVal where
  | b (v : Bool)
  | s (v : String)
  | optS (v : Option String)
  | n (v : Nat)
deriving DecidableEq, Repr

/-- Result of a guardrail check (dataclass GuardrailResult). -/
structure GuardrailResult where
  passed : Bool
  severity : GuardrailSeverity
  message : String
  violations : List String
  metadata : List (String × MetaVal)
deriving DecidableEq, Repr

/-- The caller-supplied context mapping; the only key the subsystem reads is
requires_human_review, via context.get with default False. -/
structure ReviewContext where
  requires_human_review : Option Bool
deriving DecidableEq, Repr

/-- A request for human review (dataclass ReviewRequest). -/
structure ReviewRequest where
  id : String
  content : String
  context : ReviewContext
  created_at : Nat
  status : ReviewStatus
  reviewer : Option String
  review_notes : Option String
  reviewed_at : Option Nat
  timeout_at : Option Nat
deriving DecidableEq, Repr

/-- Python dict lookup d.get(k). -/
def dictGet {α : Type} (d : List (String × α)) (k : String) : Option α :=
  (d.find? (fun p => decide (p.1 = k))).map (fun p => p.2)

/-- Python dict assignment d[k] = v: replace an existing binding, else append. -/
def dictInsert {α : Type} (d : List (String × α)) (k : String) (v : α) :
    List (String × α) :=
  if d.any (fun p => decide (p.1 = k)) then
    d.map (fun p => if p.1 = k then (k, v) else p)
  else
    d ++ [(k, v)]

/-- Manages human review requests (class ReviewQueue): the outstanding list
and the completed-reviews dict. -/
structure ReviewQueue where
  max_queue_size : Nat
  queue : List ReviewRequest
  completed_reviews : List (String × ReviewRequest)
deriving DecidableEq, Repr

namespace ReviewQueue

/-- ReviewQueue.__init__ with the given maximum size (default 1000). -/
def init (max_queue_size : Nat := 1000) : ReviewQueue :=
  { max_queue_size := max_queue_size, queue := [], completed_reviews := [] }

/-- ReviewQueue.add_request: append unless the outstanding list is full. -/
def add_request (q : ReviewQueue) (request : ReviewRequest) :
    ReviewQueue × Bool :=
  if q.queue.length ≥ q.max_queue_size then
    (q, false)
  else
    ({ q with queue := q.queue ++ [request] }, true)

/-- ReviewQueue.get_pending_requests: outstanding requests with PENDING status. -/
def get_pending_requests (q : ReviewQueue) : List ReviewRequest :=
  q.queue.filter (fun req => decide (req.status = ReviewStatus.pending))

/-- ReviewQueue.get_request: first scan the outstanding list, then the
completed-reviews dict. -/
def get_request (q : ReviewQueue) (request_id : String) : Option ReviewRequest :=
  match q.queue.find? (fun req => decide (req.id = request_id)) with
  | some req => some req
  | none => dictGet q.completed_reviews request_id

/-- ReviewQueue.complete_review: the enumerate loop stops at the first
outstanding request with the given id, sets its terminal fields, pops that
occurrence and stores the request in completed_reviews; equivalently, the
first match of find? is updated and removed by eraseP. `now` is the value of
datetime.now() used for reviewed_at. -/
def complete_review (q : ReviewQueue) (request_id : String)
    (status : ReviewStatus) (reviewer : String) (notes : Option String)
    (now : Nat) : ReviewQueue × Bool :=
  match q.queue.find? (fun req => decide (req.id = request_id)) with
  | some req =>
    let req' := { req with
      status := status
      reviewer := some reviewer
      review_notes := notes
      reviewed_at := some now }
    ({ q with
        queue := q.queue.eraseP (fun req => decide (req.id = request_id))
        completed_reviews := dictInsert q.completed_reviews request_id req' },
      true)
  | none => (q, false)

/-- The test req.timeout_at and now > req.timeout_at (None is falsy). -/
def isExpired (req : ReviewRequest) (now : Nat) : Bool :=
  match req.timeout_at with
  | some t => decide (now > t)
  | none => false

/-- ReviewQueue.cleanup_expired_requests: set status TIMEOUT on every
outstanding request whose timeout_at has passed, collect those into the
returned list, and rebuild the outstanding list keeping only requests whose
status is not TIMEOUT. The timeout_seconds parameter is unused by the source. -/
def cleanup_expired_requests (q : ReviewQueue) (now : Nat)
    (_timeout_seconds : Nat := 300) : ReviewQueue × List ReviewRequest :=
  let marked := q.queue.map (fun req =>
    if isExpired req now then { req with status := ReviewStatus.timeout } else req)
  let expired := marked.filter (fun req => isExpired req now)
  ({ q with
      queue := marked.filter (fun req => decide (¬ req.status = ReviewStatus.timeout)) },
    expired)

end ReviewQueue

/-- Whether `needle` occurs at the start of `hay` (over character lists). -/
def listStarts : List Char → List Char → Bool
  | [], _ => true
  | _ :: _, [] => false
  | a :: as, b :: bs => a == b && listStarts as bs

/-- Whether `needle` occurs anywhere inside `hay` (over character lists). -/
def listHasSub (needle : List Char) : List Char → Bool
  | [] => listStarts needle []
  | c :: cs => listStarts needle (c :: cs) || listHasSub needle cs

/-- The Python membership test `needle in hay` on strings. -/
def strHasSub (hay needle : String) : Bool :=
  listHasSub needle.data hay.data

/-- The Python expression content.lower(), as a character-by-character map. -/
def strLower (s : String) : String :=
  String.mk (s.data.map Char.toLower)

/-- The Python expression `v or d` on an optional string: None and the empty
string are falsy. -/
def orDefault (v : Option String) (d : String) : String :=
  match v with
  | none => d
  | some s => if s = "" then d else s

/-- One microsecond-counted second; asyncio.sleep(1) advances the clock by
this amount and timedelta(seconds=n) is n times this amount. -/
def microsPerSec : Nat := 1000000

/-- datetime.strftime "%Y%m%d_%H%M%S": a rendering of the instant with
one-second granularity, modelled as the second count `t / microsPerSec`. -/
def strftimeSeconds (t : Nat) : String :=
  toString (t / microsPerSec)

/-- Manages human review workflows (class HumanReviewManager). `self_id`
models the CPython id(self) value used in request-id generation. -/
structure HumanReviewManager where
  enabled : Bool
  timeout_seconds : Nat
  review_queue : ReviewQueue
  self_id : Nat
deriving DecidableEq, Repr

namespace HumanReviewManager

/-- HumanReviewManager._generate_request_id at instant `now`:
"review_" + now.strftime("%Y%m%d_%H%M%S") + "_" + str(id(self) % 10000). -/
def generate_request_id (self_id : Nat) (now : Nat) : String :=
  "review_" ++ strftimeSeconds now ++ "_" ++ toString (self_id % 10000)

/-- The fixed keyword list inside _should_require_review. -/
def high_risk_keywords : List String :=
  ["delete", "remove", "ban", "suspend", "terminate",
   "legal", "lawsuit", "compliance", "violation",
   "sensitive", "confidential", "private"]

/-- HumanReviewManager._should_require_review. -/
def should_require_review (content : String) (context : ReviewContext) : Bool :=
  if context.requires_human_review.getD false then
    true
  else if high_risk_keywords.any (fun keyword => strHasSub (strLower content) keyword) then
    true
  else if content.length > 5000 then
    true
  else
    false

/-- The result returned when the manager is disabled. -/
def disabledResult : GuardrailResult :=
  { passed := true
    severity := GuardrailSeverity.low
    message := "Human review disabled"
    violations := []
    metadata := [("human_review_enabled", MetaVal.b false)] }

/-- The result returned when no review is required. -/
def noReviewRequiredResult : GuardrailResult :=
  { passed := true
    severity := GuardrailSeverity.low
    message := "No human review required"
    violations := []
    metadata := [("review_required", MetaVal.b false)] }

/-- The result returned when the review queue is full. -/
def queueFullResult : GuardrailResult :=
  { passed := false
    severity := GuardrailSeverity.high
    message := "Review queue full - cannot process request"
    violations := ["Review queue at capacity"]
    metadata := [("review_required", MetaVal.b true), ("queue_full", MetaVal.b true)] }

/-- The result built after the wait loop times out. -/
def timeoutResult (request_id : String) (timeout_seconds : Nat) : GuardrailResult :=
  { passed := false
    severity := GuardrailSeverity.high
    message := "Human review timeout"
    violations := ["Review request timed out"]
    metadata := [("request_id", MetaVal.s request_id),
                 ("timeout_seconds", MetaVal.n timeout_seconds)] }

/-- HumanReviewManager._create_result_from_review: the if/elif/else chain on
the request status (the final else arm is reached for TIMEOUT and, were it
ever passed one, a PENDING request). -/
def create_result_from_review (request : ReviewRequest) : GuardrailResult :=
  if request.status = ReviewStatus.approved then
    { passed := true
      severity := GuardrailSeverity.low
      message := "Content approved by human reviewer"
      violations := []
      metadata := [("request_id", MetaVal.s request.id),
                   ("reviewer", MetaVal.optS request.reviewer),
                   ("review_notes", MetaVal.optS request.review_notes)] }
  else if request.status = ReviewStatus.rejected then
    { passed := false
      severity := GuardrailSeverity.high
      message := "Content rejected by human reviewer"
      violations := ["Rejected: " ++ orDefault request.review_notes "No reason provided"]
      metadata := [("request_id", MetaVal.s request.id),
                   ("reviewer", MetaVal.optS request.reviewer),
                   ("review_notes", MetaVal.optS request.review_notes)] }
  else if request.status = ReviewStatus.escalated then
    { passed := false
      severity := GuardrailSeverity.critical
      message := "Content escalated for further review"
      violations := ["Content requires escalated review"]
      metadata := [("request_id", MetaVal.s request.id),
                   ("reviewer", MetaVal.optS request.reviewer),
                   ("review_notes", MetaVal.optS request.review_notes)] }
  else
    { passed := false
      severity := GuardrailSeverity.high
      message := "Human review timeout"
      violations := ["Review request timed out"]
      metadata := [("request_id", MetaVal.s request.id)] }

/-- One action by the external reviewer against the waited-on request:
a completion with the given status, reviewer and notes. -/
def applyEvent (q : ReviewQueue) (request_id : String)
    (ev : Option (ReviewStatus × String × Option String)) (now : Nat) :
    ReviewQueue :=
  match ev with
  | none => q
  | some (st, reviewer, notes) =>
    (ReviewQueue.complete_review q request_id st reviewer notes now).1

/-- The body of _wait_for_review. `remaining` counts the iterations on which
the guard `datetime.now() < timeout_at` still holds: the clock starts at
`start`, advances by exactly the one-second sleep per iteration, and
`timeout_at = start + timeout_seconds * microsPerSec`, so the guard holds for
exactly `timeout_seconds` polls. Between two polls the external reviewer may
act, per the schedule `sched` (indexed by the poll number). Returns the final
queue, the result, and the instant at which control returns to the caller. -/
def wait_aux (request_id : String) (timeout_seconds : Nat)
    (sched : Nat → Option (ReviewStatus × String × Option String)) :
    Nat → Nat → Nat → ReviewQueue → ReviewQueue × GuardrailResult × Nat
  | 0, _, now, q =>
    ((ReviewQueue.complete_review q request_id ReviewStatus.timeout "system" none now).1,
      timeoutResult request_id timeout_seconds, now)
  | remaining + 1, step, now, q =>
    match ReviewQueue.get_request q request_id with
    | none =>
      ((ReviewQueue.complete_review q request_id ReviewStatus.timeout "system" none now).1,
        timeoutResult request_id timeout_seconds, now)
    | some request =>
      if request.status = ReviewStatus.pending then
        wait_aux request_id timeout_seconds sched remaining (step + 1)
          (now + microsPerSec) (applyEvent q request_id (sched step) now)
      else
        (q, create_result_from_review request, now)

/-- HumanReviewManager._wait_for_review, entered at instant `start`. -/
def wait_for_review (q : ReviewQueue) (request_id : String)
    (timeout_seconds : Nat)
    (sched : Nat → Option (ReviewStatus × String × Option String))
    (start : Nat) : ReviewQueue × GuardrailResult × Nat :=
  wait_aux request_id timeout_seconds sched timeout_seconds 0 start q

/-- The ReviewRequest built inside check: fresh id, timeout_at set to
now + timedelta(seconds=timeout_seconds), remaining dataclass fields at
their defaults. -/
def newReviewRequest (m : HumanReviewManager) (content : String)
    (context : ReviewContext) (now : Nat) : ReviewRequest :=
  { id := generate_request_id m.self_id now
    content := content
    context := context
    created_at := now
    status := ReviewStatus.pending
    reviewer := none
    review_notes := none
    reviewed_at := none
    timeout_at := some (now + m.timeout_seconds * microsPerSec) }

/-- HumanReviewManager.check, entered at instant `now`, with the external
reviewer acting per `sched` during the wait. Returns the updated manager, the
result, and the instant at which the call returns. -/
def check (m : HumanReviewManager) (content : String) (context : ReviewContext)
    (now : Nat)
    (sched : Nat → Option (ReviewStatus × String × Option String)) :
    HumanReviewManager × GuardrailResult × Nat :=
  if m.enabled = false then
    (m, disabledResult, now)
  else if should_require_review content context = false then
    (m, noReviewRequiredResult, now)
  else
    let review_request := newReviewRequest m content context now
    let added := ReviewQueue.add_request m.review_queue review_request
    if added.2 = false then
      ({ m with review_queue := added.1 }, queueFullResult, now)
    else
      let waited := wait_for_review added.1 review_request.id
        m.timeout_seconds sched now
      ({ m with review_queue := waited.1 }, waited.2.1, waited.2.2)

/-- HumanReviewManager.approve_request. -/
def approve_request (m : HumanReviewManager) (request_id : String)
    (reviewer : String) (notes : Option String) (now : Nat) :
    HumanReviewManager × Bool :=
  let r := ReviewQueue.complete_review m.review_queue request_id
    ReviewStatus.approved reviewer notes now
  ({ m with review_queue := r.1 }, r.2)

/-- HumanReviewManager.reject_request. -/
def reject_request (m : HumanReviewManager) (request_id : String)
    (reviewer : String) (notes : Option String) (now : Nat) :
    HumanReviewManager × Bool :=
  let r := ReviewQueue.complete_review m.review_queue request_id
    ReviewStatus.rejected reviewer notes now
  ({ m with review_queue := r.1 }, r.2)

/-- HumanReviewManager.escalate_request. -/
def escalate_request (m : HumanReviewManager) (request_id : String)
    (reviewer : String) (notes : Option String) (now : Nat) :
    HumanReviewManager × Bool :=
  let r := ReviewQueue.complete_review m.review_queue request_id
    ReviewStatus.escalated reviewer notes now
  ({ m with review_queue := r.1 }, r.2)

end HumanReviewManager

/-- A request id is present in the outstanding list. -/
def inQueue (q : ReviewQueue) (request_id : String) : Bool :=
  q.queue.any (fun req => decide (req.id = request_id))

/-- A request id is present in the completed-reviews dict. -/
def inCompleted (q : ReviewQueue) (request_id : String) : Bool :=
  (dictGet q.completed_reviews request_id).isSome

/-- A request id lies in exactly one of the two collections. -/
def ExactlyOne (q : ReviewQueue) (request_id : String) : Prop :=
  inQueue q request_id ≠ inCompleted q request_id

/-- Lookup in a result metadata mapping. -/
def metaGet (r : GuardrailResult) (k : String) : Option MetaVal :=
  dictGet r.metadata k

/-- A concrete pending request used by concrete counterexamples. -/
def sampleRequest : ReviewRequest :=
  { id := "r1"
    content := "please delete this"
    context := { requires_human_review := none }
    created_at := 0
    status := ReviewStatus.pending
    reviewer := none
    review_notes := none
    reviewed_at := none
    timeout_at := some 5 }

/-- A queue holding just the sample pending request. -/
def cq0 : ReviewQueue :=
  { max_queue_size := 1000, queue := [sampleRequest], completed_reviews := [] }

/-- A queue holding a request that is already in a terminal state while still
outstanding. -/
def approvedInQueue : ReviewQueue :=
  { max_queue_size := 1000
    queue := [{ sampleRequest with status := ReviewStatus.approved }]
    completed_reviews := [] }

/-- The sample request without a timeout. -/
def sampleNoTimeout : ReviewRequest :=
  { sampleRequest with timeout_at := none }

/-- A queue holding the request without a timeout. -/
def noTimeoutQueue : ReviewQueue :=
  { max_queue_size := 1000, queue := [sampleNoTimeout], completed_reviews := [] }

/-- A small enabled manager with a two-second review timeout. -/
def m0 : HumanReviewManager :=
  { enabled := true, timeout_seconds := 2
    review_queue := ReviewQueue.init 1000, self_id := 5 }

/-- A manager whose queue is already at capacity (maximum size zero). -/
def mFull : HumanReviewManager :=
  { enabled := true, timeout_seconds := 2
    review_queue := ReviewQueue.init 0, self_id := 5 }

/-- A disabled manager. -/
def mDisabled : HumanReviewManager :=
  { enabled := false, timeout_seconds := 2
    review_queue := ReviewQueue.init 1000, self_id := 5 }

/-- A completed sample request in the approved state. -/
def approvedSample : ReviewRequest :=
  { sampleRequest with
      status := ReviewStatus.approved
      reviewer := some "alice"
      review_notes := some "ok"
      reviewed_at := some 3 }

/-- A completed sample request in the rejected state. -/
def rejectedSample : ReviewRequest :=
  { sampleRequest with
      status := ReviewStatus.rejected
      reviewer := some "alice"
      review_notes := some "too risky"
      reviewed_at := some 3 }


/-! ### Helper lemmas -/

theorem listStarts_self (l : List Char) : listStarts l l = true := by
  induction l with
  | nil => rfl
  | cons a t ih => simp [listStarts, ih]

theorem listHasSub_append_self (s pre : List Char) :
    listHasSub s (pre ++ s) = true := by
  induction pre with
  | nil =>
    cases s with
    | nil => rfl
    | cons c cs => simp [listHasSub, listStarts_self]
  | cons a t ih => simp [listHasSub, ih]

theorem strHasSub_append_self (pre s : String) :
    strHasSub (pre ++ s) s = true := by
  unfold strHasSub
  rw [String.data_append]
  exact listHasSub_append_self s.data pre.data

theorem dictGet_cons_eq {α : Type} (a : String × α) (t : List (String × α))
    (k : String) (h : a.1 = k) : dictGet (a :: t) k = some a.2 := by
  simp [dictGet, List.find?_cons, h]

theorem dictGet_cons_ne {α : Type} (a : String × α) (t : List (String × α))
    (k : String) (h : ¬ a.1 = k) : dictGet (a :: t) k = dictGet t k := by
  simp [dictGet, List.find?_cons, h]

theorem dictGet_map_replace {α : Type} (d : List (String × α)) (k : String) (v : α)
    (h : d.any (fun p => decide (p.1 = k)) = true) :
    dictGet (d.map (fun p => if p.1 = k then (k, v) else p)) k = some v := by
  induction d with
  | nil => simp at h
  | cons a t ih =>
    rw [List.map_cons]
    by_cases ha : a.1 = k
    · rw [if_pos ha]
      exact dictGet_cons_eq (k, v) _ k rfl
    · rw [if_neg ha, dictGet_cons_ne _ _ _ ha]
      exact ih (by simpa [List.any_cons, ha] using h)

theorem dictGet_map_replace_ne {α : Type} (d : List (String × α)) (k k' : String)
    (v : α) (hne : k' ≠ k) :
    dictGet (d.map (fun p => if p.1 = k then (k, v) else p)) k' = dictGet d k' := by
  induction d with
  | nil => rfl
  | cons a t ih =>
    rw [List.map_cons]
    by_cases ha : a.1 = k
    · rw [if_pos ha]
      rw [dictGet_cons_ne (k, v) _ k' (fun hc => hne hc.symm)]
      rw [dictGet_cons_ne a t k' (by rw [ha]; exact fun hc => hne hc.symm)]
      exact ih
    · rw [if_neg ha]
      by_cases ha' : a.1 = k'
      · rw [dictGet_cons_eq _ _ _ ha', dictGet_cons_eq _ _ _ ha']
      · rw [dictGet_cons_ne _ _ _ ha', dictGet_cons_ne _ _ _ ha']
        exact ih

theorem dictGet_dictInsert_self {α : Type} (d : List (String × α)) (k : String) (v : α) :
    dictGet (dictInsert d k v) k = some v := by
  unfold dictInsert
  by_cases h : d.any (fun p => decide (p.1 = k)) = true
  · rw [if_pos h]
    exact dictGet_map_replace d k v h
  · rw [if_neg h]
    have hall : d.find? (fun p => decide (p.1 = k)) = none := by
      rw [List.find?_eq_none]
      intro p hp hc
      exact h (List.any_eq_true.mpr ⟨p, hp, hc⟩)
    unfold dictGet
    rw [List.find?_append, hall]
    simp [List.find?_cons]

theorem dictGet_dictInsert_ne {α : Type} (d : List (String × α)) (k k' : String) (v : α)
    (hne : k' ≠ k) : dictGet (dictInsert d k v) k' = dictGet d k' := by
  unfold dictInsert
  by_cases h : d.any (fun p => decide (p.1 = k)) = true
  · rw [if_pos h]
    exact dictGet_map_replace_ne d k k' v hne
  · rw [if_neg h]
    unfold dictGet
    rw [List.find?_append]
    cases hf : d.find? (fun p => decide (p.1 = k')) with
    | some p => simp [hf]
    | none =>
      have hkk : ¬ k = k' := fun hc => hne hc.symm
      simp [hf, List.find?_cons, hkk]

theorem inQueue_false_iff (q : ReviewQueue) (rid : String) :
    inQueue q rid = false ↔
      q.queue.find? (fun x => decide (x.id = rid)) = none := by
  unfold inQueue
  rw [List.any_eq_false, List.find?_eq_none]

theorem any_id_eraseP_false (l : List ReviewRequest) (rid : String)
    (hnodup : (l.map ReviewRequest.id).Nodup) :
    (l.eraseP (fun x => decide (x.id = rid))).any (fun x => decide (x.id = rid))
      = false := by
  by_cases hany : l.any (fun x => decide (x.id = rid)) = true
  · obtain ⟨a, ha, hpa⟩ := List.any_eq_true.mp hany
    obtain ⟨b, l₁, l₂, hl₁, hpb, hl, herase⟩ :=
      List.exists_of_eraseP (p := fun x => decide (x.id = rid)) ha hpa
    rw [herase, List.any_eq_false]
    intro x hx hpx
    rcases List.mem_append.mp hx with hx1 | hx2
    · exact hl₁ x hx1 hpx
    · have hbid : b.id = rid := of_decide_eq_true hpb
      have hxid : x.id = rid := of_decide_eq_true hpx
      rw [hl, List.map_append, List.map_cons] at hnodup
      have hnd2 := hnodup.of_append_right
      have hnotmem := (List.nodup_cons.mp hnd2).1
      exact hnotmem (by
        have : x.id ∈ l₂.map ReviewRequest.id := List.mem_map_of_mem _ hx2
        rwa [hxid, ← hbid] at this)
  · have hall : ∀ a ∈ l, ¬ ((fun x => decide (x.id = rid)) a = true) := by
      intro a ha hc
      exact hany (List.any_eq_true.mpr ⟨a, ha, hc⟩)
    rw [List.eraseP_of_forall_not hall]
    simpa using hany

theorem any_id_eraseP_other (l : List ReviewRequest) (rid rid' : String)
    (hne : rid ≠ rid') :
    (l.eraseP (fun x => decide (x.id = rid'))).any (fun x => decide (x.id = rid))
      = l.any (fun x => decide (x.id = rid)) := by
  by_cases hany : l.any (fun x => decide (x.id = rid')) = true
  · obtain ⟨a, ha, hpa⟩ := List.any_eq_true.mp hany
    obtain ⟨b, l₁, l₂, hl₁, hpb, hl, herase⟩ :=
      List.exists_of_eraseP (p := fun x => decide (x.id = rid')) ha hpa
    have hbid : b.id = rid' := of_decide_eq_true hpb
    have hbne : ¬ b.id = rid := by rw [hbid]; exact fun hc => hne hc.symm
    rw [herase, hl]
    simp [List.any_append, List.any_cons, hbne]
  · have hall : ∀ a ∈ l, ¬ ((fun x => decide (x.id = rid')) a = true) := by
      intro a ha hc
      exact hany (List.any_eq_true.mpr ⟨a, ha, hc⟩)
    rw [List.eraseP_of_forall_not hall]

theorem find?_append_singleton (l : List ReviewRequest) (r : ReviewRequest)
    (rid : String) (hl : ∀ x ∈ l, ¬ x.id = rid) (hr : r.id = rid) :
    (l ++ [r]).find? (fun x => decide (x.id = rid)) = some r := by
  rw [List.find?_append]
  have hnone : l.find? (fun x => decide (x.id = rid)) = none := by
    rw [List.find?_eq_none]
    intro x hx
    simpa using hl x hx
  rw [hnone]
  simp [List.find?_cons, hr]

theorem cleanup_completed_eq (q : ReviewQueue) (now : Nat) :
    (ReviewQueue.cleanup_expired_requests q now).1.completed_reviews
      = q.completed_reviews := rfl

theorem cleanup_removes_expired_id (q : ReviewQueue) (now : Nat)
    (r : ReviewRequest) (hnodup : (q.queue.map ReviewRequest.id).Nodup)
    (hmem : r ∈ q.queue) (hexp : ReviewQueue.isExpired r now = true) :
    inQueue (ReviewQueue.cleanup_expired_requests q now).1 r.id = false := by
  unfold ReviewQueue.cleanup_expired_requests inQueue
  simp only [List.any_eq_false]
  intro x hx hpx
  have hxid : x.id = r.id := of_decide_eq_true hpx
  have hxmem := List.mem_filter.mp hx
  obtain ⟨y, hy, hyx⟩ := List.mem_map.mp hxmem.1
  have hyid : y.id = x.id := by
    by_cases hye : ReviewQueue.isExpired y now = true
    · rw [← hyx]; simp [hye]
    · rw [← hyx]; simp [hye]
  have hyr : y = r := List.inj_on_of_nodup_map hnodup hy hmem (by rw [hyid, hxid])
  subst hyr
  have hxstatus : x.status = ReviewStatus.timeout := by
    rw [← hyx]; simp [hexp]
  have := hxmem.2
  simp [hxstatus] at this

/-! ### Claim theorems -/

/-- C8: the claim that generated request ids are unique within a queue
lifetime fails on the code: two distinct creation instants (microseconds 0
and 1) that fall in the same strftime second produce identical ids on the
same manager instance, contradicting the docstring of _generate_request_id. -/
theorem C8_request_id_collision :
    HumanReviewManager.generate_request_id 5 0
      = HumanReviewManager.generate_request_id 5 1 ∧ (0 : Nat) ≠ 1 := by
  decide

/-- C10: a request sitting in the outstanding list with timeout_at = None and
status Pending is never returned by cleanup_expired_requests and stays in the
outstanding list unchanged, however late the cleanup instant is. -/
theorem C10_cleanup_skips_requests_without_timeout (q : ReviewQueue) (now : Nat)
    (r : ReviewRequest) (hmem : r ∈ q.queue) (hto : r.timeout_at = none)
    (hst : r.status = ReviewStatus.pending) :
    r ∈ (ReviewQueue.cleanup_expired_requests q now).1.queue ∧
    r ∉ (ReviewQueue.cleanup_expired_requests q now).2 := by
  have hexp : ReviewQueue.isExpired r now = false := by
    simp [ReviewQueue.isExpired, hto]
  constructor
  · unfold ReviewQueue.cleanup_expired_requests
    apply List.mem_filter.mpr
    refine ⟨?_, ?_⟩
    · have hmm := List.mem_map_of_mem (fun req =>
        if ReviewQueue.isExpired req now then
          { req with status := ReviewStatus.timeout } else req) hmem
      simpa [hexp] using hmm
    · simp [hst]
  · intro hmem2
    unfold ReviewQueue.cleanup_expired_requests at hmem2
    have := List.of_mem_filter hmem2
    rw [hexp] at this
    exact Bool.false_ne_true this

/-- C10 witness: the concrete no-timeout request survives a very late cleanup. -/
theorem C10_cleanup_skips_witness :
    sampleNoTimeout ∈ (ReviewQueue.cleanup_expired_requests noTimeoutQueue 999999999).1.queue ∧
    sampleNoTimeout ∉ (ReviewQueue.cleanup_expired_requests noTimeoutQueue 999999999).2 :=
  C10_cleanup_skips_requests_without_timeout noTimeoutQueue 999999999 sampleNoTimeout
    (by decide) rfl rfl

/-- C6: the review-required predicate holds exactly when the context flag is
set, a fixed high-risk keyword occurs in the lowercased content, or the
content exceeds 5000 characters. -/
theorem C6_should_require_review_iff (content : String) (context : ReviewContext) :
    HumanReviewManager.should_require_review content context = true ↔
      (context.requires_human_review = some true ∨
       (∃ k ∈ HumanReviewManager.high_risk_keywords,
          strHasSub (strLower content) k = true) ∨
       content.length > 5000) := by
  unfold HumanReviewManager.should_require_review
  rcases context with ⟨rhr⟩
  rcases rhr with _ | b
  · simp [List.any_eq_true]
  · cases b <;> simp [List.any_eq_true]

/-- C6 witness: a keyword-bearing string requires review. -/
theorem C6_should_require_review_witness :
    HumanReviewManager.should_require_review "please delete this"
      { requires_human_review := none } = true :=
  (C6_should_require_review_iff "please delete this"
    { requires_human_review := none }).mpr
    (Or.inr (Or.inl ⟨"delete", by decide, by decide⟩))

/-- C9: when the manager is disabled or the predicate does not require
review, check returns passed and leaves the manager (hence both queue
collections) untouched, returning at the same instant it was entered. -/
theorem C9_no_review_no_queue_touch (m : HumanReviewManager) (content : String)
    (context : ReviewContext) (now : Nat)
    (sched : Nat → Option (ReviewStatus × String × Option String))
    (h : m.enabled = false ∨
         HumanReviewManager.should_require_review content context = false) :
    (HumanReviewManager.check m content context now sched).1 = m ∧
    (HumanReviewManager.check m content context now sched).2.1.passed = true ∧
    (HumanReviewManager.check m content context now sched).2.2 = now := by
  unfold HumanReviewManager.check
  rcases h with h | h
  · rw [if_pos h]
    exact ⟨rfl, rfl, rfl⟩
  · by_cases he : m.enabled = false
    · rw [if_pos he]
      exact ⟨rfl, rfl, rfl⟩
    · rw [if_neg he, if_pos h]
      exact ⟨rfl, rfl, rfl⟩

/-- C9 witness: a disabled manager is returned unchanged with a passing
result. -/
theorem C9_no_review_witness :
    (HumanReviewManager.check mDisabled "please delete this"
        { requires_human_review := none } 0 (fun _ => none)).1 = mDisabled ∧
    (HumanReviewManager.check mDisabled "please delete this"
        { requires_human_review := none } 0 (fun _ => none)).2.1.passed = true ∧
    (HumanReviewManager.check mDisabled "please delete this"
        { requires_human_review := none } 0 (fun _ => none)).2.2 = 0 :=
  C9_no_review_no_queue_touch mDisabled "please delete this"
    { requires_human_review := none } 0 (fun _ => none) (Or.inl rfl)

/-- C5: the verdict built from a terminally-observed request maps Approved to
a passing LOW verdict, Rejected to a failing HIGH verdict whose violation
contains the reviewer notes (or the default reason), Escalated to a failing
CRITICAL verdict and TimedOut to a failing HIGH verdict with the fixed
timeout violation; every such verdict carries metadata request_id, and the
first three also carry reviewer and review_notes. -/
theorem C5_result_from_review_mapping (r : ReviewRequest) :
    (r.status = ReviewStatus.approved →
      HumanReviewManager.create_result_from_review r =
        { passed := true
          severity := GuardrailSeverity.low
          message := "Content approved by human reviewer"
          violations := []
          metadata := [("request_id", MetaVal.s r.id),
                       ("reviewer", MetaVal.optS r.reviewer),
                       ("review_notes", MetaVal.optS r.review_notes)] }) ∧
    (r.status = ReviewStatus.rejected →
      HumanReviewManager.create_result_from_review r =
        { passed := false
          severity := GuardrailSeverity.high
          message := "Content rejected by human reviewer"
          violations :=
            ["Rejected: " ++ orDefault r.review_notes "No reason provided"]
          metadata := [("request_id", MetaVal.s r.id),
                       ("reviewer", MetaVal.optS r.reviewer),
                       ("review_notes", MetaVal.optS r.review_notes)] } ∧
      strHasSub ("Rejected: " ++ orDefault r.review_notes "No reason provided")
        (orDefault r.review_notes "No reason provided") = true) ∧
    (r.status = ReviewStatus.escalated →
      HumanReviewManager.create_result_from_review r =
        { passed := false
          severity := GuardrailSeverity.critical
          message := "Content escalated for further review"
          violations := ["Content requires escalated review"]
          metadata := [("request_id", MetaVal.s r.id),
                       ("reviewer", MetaVal.optS r.reviewer),
                       ("review_notes", MetaVal.optS r.review_notes)] }) ∧
    (r.status = ReviewStatus.timeout →
      HumanReviewManager.create_result_from_review r =
        { passed := false
          severity := GuardrailSeverity.high
          message := "Human review timeout"
          violations := ["Review request timed out"]
          metadata := [("request_id", MetaVal.s r.id)] }) ∧
    (r.status ≠ ReviewStatus.pending →
      metaGet (HumanReviewManager.create_result_from_review r) "request_id"
        = some (MetaVal.s r.id)) := by
  refine ⟨?_, ?_, ?_, ?_, ?_⟩
  · intro h
    simp [HumanReviewManager.create_result_from_review, h]
  · intro h
    refine ⟨by simp [HumanReviewManager.create_result_from_review, h], ?_⟩
    exact strHasSub_append_self "Rejected: "
      (orDefault r.review_notes "No reason provided")
  · intro h
    simp [HumanReviewManager.create_result_from_review, h]
  · intro h
    simp [HumanReviewManager.create_result_from_review, h]
  · intro h
    cases hs : r.status with
    | pending => exact absurd hs h
    | approved =>
      simp [HumanReviewManager.create_result_from_review, hs, metaGet,
        dictGet, List.find?_cons]
    | rejected =>
      simp [HumanReviewManager.create_result_from_review, hs, metaGet,
        dictGet, List.find?_cons]
    | escalated =>
      simp [HumanReviewManager.create_result_from_review, hs, metaGet,
        dictGet, List.find?_cons]
    | timeout =>
      simp [HumanReviewManager.create_result_from_review, hs, metaGet,
        dictGet, List.find?_cons]

/-- C5 witness: the mapping evaluated on a concrete rejected request. -/
theorem C5_result_from_review_witness :
    HumanReviewManager.create_result_from_review rejectedSample =
      { passed := false
        severity := GuardrailSeverity.high
        message := "Content rejected by human reviewer"
        violations :=
          ["Rejected: " ++ orDefault rejectedSample.review_notes "No reason provided"]
        metadata := [("request_id", MetaVal.s rejectedSample.id),
                     ("reviewer", MetaVal.optS rejectedSample.reviewer),
                     ("review_notes", MetaVal.optS rejectedSample.review_notes)] } ∧
    strHasSub ("Rejected: " ++ orDefault rejectedSample.review_notes "No reason provided")
      (orDefault rejectedSample.review_notes "No reason provided") = true :=
  (C5_result_from_review_mapping rejectedSample).2.1 rfl

/-- C7: add_request fails exactly when the outstanding list has reached the
configured maximum, leaving the queue unchanged; and a check that requires
review against a full queue returns immediately (same instant, manager
unchanged) with the queue-full verdict: failed, HIGH severity, the message
containing "review queue full" (case-insensitively) and the capacity
violation. -/
theorem C7_queue_full_behavior (q : ReviewQueue) (r : ReviewRequest)
    (m : HumanReviewManager) (content : String) (context : ReviewContext)
    (now : Nat) (sched : Nat → Option (ReviewStatus × String × Option String)) :
    ((ReviewQueue.add_request q r).2 = false ↔
      q.queue.length ≥ q.max_queue_size) ∧
    ((ReviewQueue.add_request q r).2 = false →
      (ReviewQueue.add_request q r).1 = q) ∧
    (m.enabled = true →
     HumanReviewManager.should_require_review content context = true →
     m.review_queue.queue.length ≥ m.review_queue.max_queue_size →
     (HumanReviewManager.check m content context now sched).1 = m ∧
     (HumanReviewManager.check m content context now sched).2.1
        = HumanReviewManager.queueFullResult ∧
     (HumanReviewManager.check m content context now sched).2.2 = now ∧
     (HumanReviewManager.check m content context now sched).2.1.passed = false ∧
     (HumanReviewManager.check m content context now sched).2.1.severity
        = GuardrailSeverity.high ∧
     strHasSub
        (strLower (HumanReviewManager.check m content context now sched).2.1.message)
        "review queue full" = true ∧
     (HumanReviewManager.check m content context now sched).2.1.violations
        = ["Review queue at capacity"]) := by
  refine ⟨?_, ?_, ?_⟩
  · unfold ReviewQueue.add_request
    by_cases hlen : q.queue.length ≥ q.max_queue_size
    · simp [hlen]
    · simp [hlen]
  · unfold ReviewQueue.add_request
    by_cases hlen : q.queue.length ≥ q.max_queue_size
    · simp [hlen]
    · simp [hlen]
  · intro he hreq hfull
    have he' : ¬ m.enabled = false := by simp [he]
    have hreq' : ¬ HumanReviewManager.should_require_review content context = false := by
      simp [hreq]
    have hadd : ReviewQueue.add_request m.review_queue
        (HumanReviewManager.newReviewRequest m content context now)
        = (m.review_queue, false) := by
      unfold ReviewQueue.add_request
      rw [if_pos hfull]
    have hcheck : HumanReviewManager.check m content context now sched
        = (m, HumanReviewManager.queueFullResult, now) := by
      unfold HumanReviewManager.check
      rw [if_neg he', if_neg hreq']
      simp only [hadd]
      rfl
    have h1 : (HumanReviewManager.check m content context now sched).2.1
        = HumanReviewManager.queueFullResult := by rw [hcheck]
    refine ⟨by rw [hcheck], h1, by rw [hcheck], by rw [h1]; rfl,
      by rw [h1]; rfl, ?_, by rw [h1]; rfl⟩
    rw [h1]
    decide

/-- C7 witness: a manager whose queue capacity is zero returns the queue-full
verdict immediately. -/
theorem C7_queue_full_witness :
    (HumanReviewManager.check mFull "please delete this"
        { requires_human_review := none } 0 (fun _ => none)).1 = mFull ∧
    (HumanReviewManager.check mFull "please delete this"
        { requires_human_review := none } 0 (fun _ => none)).2.1
      = HumanReviewManager.queueFullResult ∧
    (HumanReviewManager.check mFull "please delete this"
        { requires_human_review := none } 0 (fun _ => none)).2.2 = 0 ∧
    (HumanReviewManager.check mFull "please delete this"
        { requires_human_review := none } 0 (fun _ => none)).2.1.passed = false ∧
    (HumanReviewManager.check mFull "please delete this"
        { requires_human_review := none } 0 (fun _ => none)).2.1.severity
      = GuardrailSeverity.high ∧
    strHasSub
      (strLower (HumanReviewManager.check mFull "please delete this"
        { requires_human_review := none } 0 (fun _ => none)).2.1.message)
      "review queue full" = true ∧
    (HumanReviewManager.check mFull "please delete this"
        { requires_human_review := none } 0 (fun _ => none)).2.1.violations
      = ["Review queue at capacity"] :=
  (C7_queue_full_behavior (ReviewQueue.init 0) sampleRequest mFull
    "please delete this" { requires_human_review := none } 0 (fun _ => none)).2.2
    rfl (by decide) (by decide)

/-- C1 counterexample: right before a cleanup the expired request r1 is
outstanding, and right after the public cleanup operation it is in neither
collection, refuting the exactly-one claim at that observable point. -/
theorem C1_cleanup_neither_counterexample :
    inQueue cq0 "r1" = true ∧
    inQueue (ReviewQueue.cleanup_expired_requests cq0 10).1 "r1" = false ∧
    inCompleted (ReviewQueue.cleanup_expired_requests cq0 10).1 "r1" = false := by
  decide

/-- C1 amended: the exactly-one invariant is established by a successful add
of a fresh id and preserved by complete_review (for the completed id, given
distinct outstanding ids, and for any other id); cleanup_expired_requests
breaks it by removing an expired request from outstanding while leaving the
completed dict untouched, so that request ends in neither collection. -/
theorem C1_exactly_one_amended :
    (∀ q r, inQueue q r.id = false → inCompleted q r.id = false →
      (ReviewQueue.add_request q r).2 = true →
      ExactlyOne (ReviewQueue.add_request q r).1 r.id) ∧
    (∀ q rid st rev notes now, ((q.queue.map ReviewRequest.id).Nodup) →
      ExactlyOne q rid →
      ExactlyOne (ReviewQueue.complete_review q rid st rev notes now).1 rid) ∧
    (∀ q rid rid2 st rev notes now, rid ≠ rid2 →
      ExactlyOne q rid →
      ExactlyOne (ReviewQueue.complete_review q rid2 st rev notes now).1 rid) ∧
    (∀ q now r, ((q.queue.map ReviewRequest.id).Nodup) →
      r ∈ q.queue → ReviewQueue.isExpired r now = true →
      inQueue (ReviewQueue.cleanup_expired_requests q now).1 r.id = false ∧
      (ReviewQueue.cleanup_expired_requests q now).1.completed_reviews
        = q.completed_reviews) := by
  refine ⟨?_, ?_, ?_, ?_⟩
  · intro q r hq hc hadd
    have hres : (ReviewQueue.add_request q r).1
        = { q with queue := q.queue ++ [r] } := by
      unfold ReviewQueue.add_request at hadd ⊢
      by_cases hlen : q.queue.length ≥ q.max_queue_size
      · rw [if_pos hlen] at hadd
        exact absurd hadd (by simp)
      · rw [if_neg hlen]
    rw [hres]
    unfold ExactlyOne
    unfold inQueue at hq ⊢
    unfold inCompleted at hc ⊢
    show (q.queue ++ [r]).any (fun req => decide (req.id = r.id))
        ≠ (dictGet q.completed_reviews r.id).isSome
    rw [List.any_append, hq, hc]
    simp
  · intro q rid st rev notes now hnodup hx
    unfold ReviewQueue.complete_review
    cases hf : q.queue.find? (fun req => decide (req.id = rid)) with
    | none => exact hx
    | some req =>
      unfold ExactlyOne
      unfold inQueue inCompleted
      show (q.queue.eraseP (fun req => decide (req.id = rid))).any
          (fun req => decide (req.id = rid))
        ≠ (dictGet (dictInsert q.completed_reviews rid
            { req with
                status := st
                reviewer := some rev
                review_notes := notes
                reviewed_at := some now }) rid).isSome
      rw [any_id_eraseP_false q.queue rid hnodup, dictGet_dictInsert_self]
      simp
  · intro q rid rid2 st rev notes now hne hx
    unfold ReviewQueue.complete_review
    cases hf : q.queue.find? (fun req => decide (req.id = rid2)) with
    | none => exact hx
    | some req =>
      unfold ExactlyOne at hx ⊢
      unfold inQueue inCompleted at hx ⊢
      show (q.queue.eraseP (fun req => decide (req.id = rid2))).any
          (fun req => decide (req.id = rid))
        ≠ (dictGet (dictInsert q.completed_reviews rid2
            { req with
                status := st
                reviewer := some rev
                review_notes := notes
                reviewed_at := some now }) rid).isSome
      rw [any_id_eraseP_other q.queue rid rid2 hne,
        dictGet_dictInsert_ne q.completed_reviews rid2 rid _ hne]
      exact hx
  · intro q now r hnodup hmem hexp
    exact ⟨cleanup_removes_expired_id q now r hnodup hmem hexp, rfl⟩

/-- C1 witness: the amended invariant at a concrete fresh add. -/
theorem C1_exactly_one_witness :
    ExactlyOne (ReviewQueue.add_request (ReviewQueue.init 1000) sampleRequest).1
      sampleRequest.id :=
  C1_exactly_one_amended.1 (ReviewQueue.init 1000) sampleRequest
    (by decide) (by decide) (by decide)

theorem isExpired_mark (req : ReviewRequest) (now : Nat) :
    ReviewQueue.isExpired
      (if ReviewQueue.isExpired req now then
        { req with status := ReviewStatus.timeout } else req) now
      = ReviewQueue.isExpired req now := by
  by_cases h : ReviewQueue.isExpired req now = true
  · rw [if_pos h]
    rfl
  · rw [if_neg h]

theorem mark_filter_comm (l : List ReviewRequest) (now : Nat) :
    (l.map (fun req =>
        if ReviewQueue.isExpired req now then
          { req with status := ReviewStatus.timeout } else req)).filter
      (fun req => ReviewQueue.isExpired req now)
    = (l.filter (fun req => ReviewQueue.isExpired req now)).map
        (fun req => { req with status := ReviewStatus.timeout }) := by
  induction l with
  | nil => rfl
  | cons a t ih =>
    rw [List.map_cons, List.filter_cons, List.filter_cons]
    rw [isExpired_mark]
    by_cases h : ReviewQueue.isExpired a now = true
    · simp only [if_pos h, List.map_cons]
      rw [ih]
    · simp only [if_neg h]
      exact ih

/-- The list returned by cleanup_expired_requests is exactly the expired
outstanding requests, each with its status set to TIMEOUT. -/
theorem cleanup_expired_list_eq (q : ReviewQueue) (now : Nat) :
    (ReviewQueue.cleanup_expired_requests q now).2
      = (q.queue.filter (fun req => ReviewQueue.isExpired req now)).map
          (fun req => { req with status := ReviewStatus.timeout }) :=
  mark_filter_comm q.queue now

/-- C2 counterexample: the expired outstanding request r1 is not retrievable
by get_request after cleanup_expired_requests (the claim says it should be
found in completed with status TimedOut). -/
theorem C2_cleanup_not_retrievable_counterexample :
    ReviewQueue.isExpired sampleRequest 10 = true ∧
    inQueue cq0 "r1" = true ∧
    ReviewQueue.get_request (ReviewQueue.cleanup_expired_requests cq0 10).1 "r1"
      = none := by
  decide

/-- C2 amended: cleanup_expired_requests marks every outstanding request
whose timeout_at has passed as TimedOut and returns exactly the list of
those newly expired requests, but it removes them from outstanding WITHOUT
moving them to the completed dict, so afterwards get_request finds nothing
for such an id (it does not use the exclusive completion path). -/
theorem C2_cleanup_amended :
    (∀ q now r, ((q.queue.map ReviewRequest.id).Nodup) → r ∈ q.queue →
      ReviewQueue.isExpired r now = true → inCompleted q r.id = false →
      ReviewQueue.get_request (ReviewQueue.cleanup_expired_requests q now).1 r.id
        = none) ∧
    (∀ q now, (ReviewQueue.cleanup_expired_requests q now).2
      = (q.queue.filter (fun req => ReviewQueue.isExpired req now)).map
          (fun req => { req with status := ReviewStatus.timeout })) ∧
    (∀ q now r, r ∈ (ReviewQueue.cleanup_expired_requests q now).2 →
      r.status = ReviewStatus.timeout) := by
  refine ⟨?_, ?_, ?_⟩
  · intro q now r hnodup hmem hexp hc
    have h1 := cleanup_removes_expired_id q now r hnodup hmem hexp
    rw [inQueue_false_iff] at h1
    unfold ReviewQueue.get_request
    rw [h1, cleanup_completed_eq]
    unfold inCompleted at hc
    cases hg : dictGet q.completed_reviews r.id with
    | none => rfl
    | some v =>
      rw [hg] at hc
      simp at hc
  · intro q now
    exact cleanup_expired_list_eq q now
  · intro q now r hmem
    rw [cleanup_expired_list_eq] at hmem
    obtain ⟨x, hx, hxr⟩ := List.mem_map.mp hmem
    rw [← hxr]

/-- C2 witness: the amended behavior evaluated on the concrete queue. -/
theorem C2_cleanup_witness :
    ReviewQueue.get_request (ReviewQueue.cleanup_expired_requests cq0 10).1
      sampleRequest.id = none :=
  C2_cleanup_amended.1 cq0 10 sampleRequest (by decide) (by decide) (by decide)
    (by decide)

/-- C3 counterexample: complete_review succeeds (returns true) on an
outstanding request whose status is already terminal (Approved), although
the claim says it must return false when the found status is not Pending:
the code performs no status check. -/
theorem C3_nonpending_complete_counterexample :
    (ReviewQueue.complete_review approvedInQueue "r1" ReviewStatus.rejected
        "rev" none 7).2 = true ∧
    (∃ r ∈ approvedInQueue.queue,
      r.id = "r1" ∧ r.status ≠ ReviewStatus.pending) := by
  decide

/-- C3 amended: complete_review returns false exactly when the id is absent
from the outstanding list (it performs no Pending check); on success it sets
status, reviewer, review_notes and reviewed_at and moves the request from
outstanding to completed, so that - when outstanding ids are distinct - a
second completion attempt on the same id returns false and changes nothing,
leaving the stored terminal fields those of the first call. -/
theorem C3_complete_amended :
    (∀ q rid st rev notes now,
      ((ReviewQueue.complete_review q rid st rev notes now).2 = false ↔
        inQueue q rid = false)) ∧
    (∀ q rid st rev notes now req, ((q.queue.map ReviewRequest.id).Nodup) →
      req ∈ q.queue → req.id = rid →
      ((ReviewQueue.complete_review q rid st rev notes now).2 = true ∧
       dictGet (ReviewQueue.complete_review q rid st rev notes
           now).1.completed_reviews rid
         = some { req with
             status := st
             reviewer := some rev
             review_notes := notes
             reviewed_at := some now } ∧
       inQueue (ReviewQueue.complete_review q rid st rev notes now).1 rid
         = false)) ∧
    (∀ q rid st rev notes now, inQueue q rid = false →
      ((ReviewQueue.complete_review q rid st rev notes now).2 = false ∧
       (ReviewQueue.complete_review q rid st rev notes now).1 = q)) := by
  refine ⟨?_, ?_, ?_⟩
  · intro q rid st rev notes now
    unfold ReviewQueue.complete_review
    cases hf : q.queue.find? (fun req => decide (req.id = rid)) with
    | some req =>
      constructor
      · intro h
        exact absurd h (by simp)
      · intro h
        rw [inQueue_false_iff] at h
        rw [h] at hf
        exact absurd hf (by simp)
    | none =>
      constructor
      · intro _
        rw [inQueue_false_iff]
        exact hf
      · intro _
        rfl
  · intro q rid st rev notes now req hnodup hmem hid
    have hfind : q.queue.find? (fun x => decide (x.id = rid)) = some req := by
      cases hf : q.queue.find? (fun x => decide (x.id = rid)) with
      | none =>
        rw [List.find?_eq_none] at hf
        have := hf req hmem
        simp [hid] at this
      | some x =>
        have hxmem := List.mem_of_find?_eq_some hf
        have hp := List.find?_some hf
        have hxid : x.id = rid := of_decide_eq_true hp
        have hxr : x = req :=
          List.inj_on_of_nodup_map hnodup hxmem hmem (by rw [hxid, hid])
        rw [hxr]
    unfold ReviewQueue.complete_review
    rw [hfind]
    refine ⟨rfl, ?_, ?_⟩
    · show dictGet (dictInsert q.completed_reviews rid
          { req with
              status := st
              reviewer := some rev
              review_notes := notes
              reviewed_at := some now }) rid = some _
      exact dictGet_dictInsert_self _ _ _
    · show (q.queue.eraseP (fun x => decide (x.id = rid))).any
          (fun x => decide (x.id = rid)) = false
      exact any_id_eraseP_false q.queue rid hnodup
  · intro q rid st rev notes now h
    rw [inQueue_false_iff] at h
    unfold ReviewQueue.complete_review
    rw [h]
    exact ⟨rfl, rfl⟩

/-- C3 witness: a concrete successful completion, exclusive per the amended
claim. -/
theorem C3_complete_witness :
    (ReviewQueue.complete_review cq0 "r1" ReviewStatus.approved "alice"
        (some "ok") 3).2 = true ∧
    dictGet (ReviewQueue.complete_review cq0 "r1" ReviewStatus.approved "alice"
        (some "ok") 3).1.completed_reviews "r1"
      = some { sampleRequest with
          status := ReviewStatus.approved
          reviewer := some "alice"
          review_notes := some "ok"
          reviewed_at := some 3 } ∧
    inQueue (ReviewQueue.complete_review cq0 "r1" ReviewStatus.approved "alice"
        (some "ok") 3).1 "r1" = false :=
  C3_complete_amended.2.1 cq0 "r1" ReviewStatus.approved "alice" (some "ok") 3
    sampleRequest (by decide) (by decide) rfl

theorem wait_aux_time_le (rid : String) (tsec : Nat)
    (sched : Nat → Option (ReviewStatus × String × Option String)) :
    ∀ remaining step now q,
      (HumanReviewManager.wait_aux rid tsec sched remaining step now q).2.2
        ≤ now + remaining * microsPerSec := by
  intro remaining
  induction remaining with
  | zero =>
    intro step now q
    simp [HumanReviewManager.wait_aux]
  | succ n ih =>
    intro step now q
    unfold HumanReviewManager.wait_aux
    split
    · exact Nat.le_add_right now ((n + 1) * microsPerSec)
    · split
      · have h := ih (step + 1) (now + microsPerSec)
          (HumanReviewManager.applyEvent q rid (sched step) now)
        have harith : now + microsPerSec + n * microsPerSec
            = now + (n + 1) * microsPerSec := by ring
        rw [harith] at h
        exact h
      · exact Nat.le_add_right now ((n + 1) * microsPerSec)

theorem wait_aux_result_shape (rid : String) (tsec : Nat)
    (sched : Nat → Option (ReviewStatus × String × Option String)) :
    ∀ remaining step now q,
      (∃ r, r.status ≠ ReviewStatus.pending ∧
        (HumanReviewManager.wait_aux rid tsec sched remaining step now q).2.1
          = HumanReviewManager.create_result_from_review r) ∨
      (HumanReviewManager.wait_aux rid tsec sched remaining step now q).2.1
        = HumanReviewManager.timeoutResult rid tsec := by
  intro remaining
  induction remaining with
  | zero =>
    intro step now q
    right
    rfl
  | succ n ih =>
    intro step now q
    unfold HumanReviewManager.wait_aux
    split
    · right
      rfl
    · split
      · exact ih (step + 1) (now + microsPerSec)
          (HumanReviewManager.applyEvent q rid (sched step) now)
      · rename_i r heq hs
        exact Or.inl ⟨r, hs, rfl⟩

theorem wait_aux_no_reviewer (rid : String) (tsec : Nat) :
    ∀ remaining step now q req,
      q.queue.find? (fun x => decide (x.id = rid)) = some req →
      req.status = ReviewStatus.pending →
      HumanReviewManager.wait_aux rid tsec (fun _ => none) remaining step now q
        = ((ReviewQueue.complete_review q rid ReviewStatus.timeout "system" none
              (now + remaining * microsPerSec)).1,
           HumanReviewManager.timeoutResult rid tsec,
           now + remaining * microsPerSec) := by
  intro remaining
  induction remaining with
  | zero =>
    intro step now q req hf hs
    simp [HumanReviewManager.wait_aux]
  | succ n ih =>
    intro step now q req hf hs
    unfold HumanReviewManager.wait_aux
    have hget : ReviewQueue.get_request q rid = some req := by
      unfold ReviewQueue.get_request
      rw [hf]
    rw [hget]
    show (if req.status = ReviewStatus.pending then
        HumanReviewManager.wait_aux rid tsec (fun _ => none) n (step + 1)
          (now + microsPerSec) (HumanReviewManager.applyEvent q rid none now)
      else (q, HumanReviewManager.create_result_from_review req, now))
      = ((ReviewQueue.complete_review q rid ReviewStatus.timeout "system" none
            (now + (n + 1) * microsPerSec)).1,
         HumanReviewManager.timeoutResult rid tsec,
         now + (n + 1) * microsPerSec)
    rw [if_pos hs]
    have h := ih (step + 1) (now + microsPerSec) q req hf hs
    have harith : now + microsPerSec + n * microsPerSec
        = now + (n + 1) * microsPerSec := by ring
    rw [harith] at h
    exact h

theorem check_wait_eq (m : HumanReviewManager) (content : String)
    (context : ReviewContext) (now : Nat)
    (sched : Nat → Option (ReviewStatus × String × Option String))
    (he : m.enabled = true)
    (hreq : HumanReviewManager.should_require_review content context = true)
    (hlen : m.review_queue.queue.length < m.review_queue.max_queue_size) :
    HumanReviewManager.check m content context now sched
      = ({ m with review_queue :=
            (HumanReviewManager.wait_for_review
              { m.review_queue with queue := m.review_queue.queue
                  ++ [HumanReviewManager.newReviewRequest m content context now] }
              (HumanReviewManager.newReviewRequest m content context now).id
              m.timeout_seconds sched now).1 },
         (HumanReviewManager.wait_for_review
            { m.review_queue with queue := m.review_queue.queue
                ++ [HumanReviewManager.newReviewRequest m content context now] }
            (HumanReviewManager.newReviewRequest m content context now).id
            m.timeout_seconds sched now).2.1,
         (HumanReviewManager.wait_for_review
            { m.review_queue with queue := m.review_queue.queue
                ++ [HumanReviewManager.newReviewRequest m content context now] }
            (HumanReviewManager.newReviewRequest m content context now).id
            m.timeout_seconds sched now).2.2) := by
  have he' : ¬ m.enabled = false := by simp [he]
  have hreq' : ¬ HumanReviewManager.should_require_review content context
      = false := by simp [hreq]
  have hadd : ReviewQueue.add_request m.review_queue
      (HumanReviewManager.newReviewRequest m content context now)
      = ({ m.review_queue with queue := m.review_queue.queue
            ++ [HumanReviewManager.newReviewRequest m content context now] },
         true) := by
    unfold ReviewQueue.add_request
    rw [if_neg (Nat.not_le.mpr hlen)]
  unfold HumanReviewManager.check
  rw [if_neg he', if_neg hreq']
  simp only [hadd]
  rw [if_neg (show ¬ (true = false) by decide)]

theorem check_full_eq (m : HumanReviewManager) (content : String)
    (context : ReviewContext) (now : Nat)
    (sched : Nat → Option (ReviewStatus × String × Option String))
    (he : m.enabled = true)
    (hreq : HumanReviewManager.should_require_review content context = true)
    (hfull : m.review_queue.queue.length ≥ m.review_queue.max_queue_size) :
    HumanReviewManager.check m content context now sched
      = (m, HumanReviewManager.queueFullResult, now) := by
  have he' : ¬ m.enabled = false := by simp [he]
  have hreq' : ¬ HumanReviewManager.should_require_review content context
      = false := by simp [hreq]
  have hadd : ReviewQueue.add_request m.review_queue
      (HumanReviewManager.newReviewRequest m content context now)
      = (m.review_queue, false) := by
    unfold ReviewQueue.add_request
    rw [if_pos hfull]
  unfold HumanReviewManager.check
  rw [if_neg he', if_neg hreq']
  simp only [hadd]
  rfl

theorem check_not_required_eq (m : HumanReviewManager) (content : String)
    (context : ReviewContext) (now : Nat)
    (sched : Nat → Option (ReviewStatus × String × Option String))
    (he : m.enabled = true)
    (hreq : HumanReviewManager.should_require_review content context = false) :
    HumanReviewManager.check m content context now sched
      = (m, HumanReviewManager.noReviewRequiredResult, now) := by
  unfold HumanReviewManager.check
  rw [if_neg (show ¬ m.enabled = false by simp [he]), if_pos hreq]

/-- C4: on an enabled manager, check always returns by the model instant
now + timeout_seconds (the polling loop terminates); whatever the reviewer
schedule, the returned result is a definite verdict: either the mapping of a
request observed in a non-Pending state, or one of the fixed short-circuit
verdicts (no review required, queue full) or the timeout verdict; and when no
reviewer decision ever arrives, the request is completed as TimedOut (moved
to the completed dict with reviewer "system") and the timeout verdict is
returned. -/
theorem C4_check_terminates_bounded :
    (∀ m content context now sched, m.enabled = true →
      (HumanReviewManager.check m content context now sched).2.2
        ≤ now + m.timeout_seconds * microsPerSec) ∧
    (∀ m content context now sched, m.enabled = true →
      ((∃ r, r.status ≠ ReviewStatus.pending ∧
          (HumanReviewManager.check m content context now sched).2.1
            = HumanReviewManager.create_result_from_review r) ∨
        (HumanReviewManager.check m content context now sched).2.1
          = HumanReviewManager.noReviewRequiredResult ∨
        (HumanReviewManager.check m content context now sched).2.1
          = HumanReviewManager.queueFullResult ∨
        (HumanReviewManager.check m content context now sched).2.1
          = HumanReviewManager.timeoutResult
              (HumanReviewManager.generate_request_id m.self_id now)
              m.timeout_seconds)) ∧
    (∀ m content context now, m.enabled = true →
      HumanReviewManager.should_require_review content context = true →
      m.review_queue.queue.length < m.review_queue.max_queue_size →
      inQueue m.review_queue
          (HumanReviewManager.generate_request_id m.self_id now) = false →
      ((HumanReviewManager.check m content context now (fun _ => none)).2.1
          = HumanReviewManager.timeoutResult
              (HumanReviewManager.generate_request_id m.self_id now)
              m.timeout_seconds ∧
        ∃ req,
          dictGet (HumanReviewManager.check m content context now
                (fun _ => none)).1.review_queue.completed_reviews
              (HumanReviewManager.generate_request_id m.self_id now)
            = some req ∧
          req.status = ReviewStatus.timeout ∧
          req.reviewer = some "system")) := by
  refine ⟨?_, ?_, ?_⟩
  · intro m content context now sched he
    by_cases hreq : HumanReviewManager.should_require_review content context
        = true
    · by_cases hlen : m.review_queue.queue.length
          < m.review_queue.max_queue_size
      · rw [check_wait_eq m content context now sched he hreq hlen]
        exact wait_aux_time_le _ m.timeout_seconds sched m.timeout_seconds
          0 now _
      · rw [check_full_eq m content context now sched he hreq
          (Nat.le_of_not_lt hlen)]
        exact Nat.le_add_right now _
    · have hreq2 : HumanReviewManager.should_require_review content context
          = false := by
        cases hb : HumanReviewManager.should_require_review content context
        · rfl
        · exact absurd hb hreq
      rw [check_not_required_eq m content context now sched he hreq2]
      exact Nat.le_add_right now _
  · intro m content context now sched he
    by_cases hreq : HumanReviewManager.should_require_review content context
        = true
    · by_cases hlen : m.review_queue.queue.length
          < m.review_queue.max_queue_size
      · rw [check_wait_eq m content context now sched he hreq hlen]
        have h := wait_aux_result_shape
          (HumanReviewManager.newReviewRequest m content context now).id
          m.timeout_seconds sched m.timeout_seconds 0 now
          { m.review_queue with queue := m.review_queue.queue
              ++ [HumanReviewManager.newReviewRequest m content context now] }
        rcases h with ⟨r, hr, hres⟩ | hres
        · exact Or.inl ⟨r, hr, hres⟩
        · exact Or.inr (Or.inr (Or.inr hres))
      · rw [check_full_eq m content context now sched he hreq
          (Nat.le_of_not_lt hlen)]
        exact Or.inr (Or.inr (Or.inl rfl))
    · have hreq2 : HumanReviewManager.should_require_review content context
          = false := by
        cases hb : HumanReviewManager.should_require_review content context
        · rfl
        · exact absurd hb hreq
      rw [check_not_required_eq m content context now sched he hreq2]
      exact Or.inr (Or.inl rfl)
  · intro m content context now he hreq hlen hq
    have hfind : ({ m.review_queue with queue := m.review_queue.queue
          ++ [HumanReviewManager.newReviewRequest m content context now] }).queue.find?
        (fun x => decide (x.id
          = (HumanReviewManager.newReviewRequest m content context now).id))
        = some (HumanReviewManager.newReviewRequest m content context now) := by
      show (m.review_queue.queue
          ++ [HumanReviewManager.newReviewRequest m content context now]).find?
          (fun x => decide (x.id
            = (HumanReviewManager.newReviewRequest m content context now).id))
          = some (HumanReviewManager.newReviewRequest m content context now)
      apply find?_append_singleton
      · intro x hx
        unfold inQueue at hq
        rw [List.any_eq_false] at hq
        have hx2 := hq x hx
        simpa using hx2
      · rfl
    have hwait := wait_aux_no_reviewer
      (HumanReviewManager.newReviewRequest m content context now).id
      m.timeout_seconds m.timeout_seconds 0 now
      { m.review_queue with queue := m.review_queue.queue
          ++ [HumanReviewManager.newReviewRequest m content context now] }
      (HumanReviewManager.newReviewRequest m content context now) hfind rfl
    have hwait2 : HumanReviewManager.wait_for_review
        { m.review_queue with queue := m.review_queue.queue
            ++ [HumanReviewManager.newReviewRequest m content context now] }
        (HumanReviewManager.newReviewRequest m content context now).id
        m.timeout_seconds (fun _ => none) now
        = ((ReviewQueue.complete_review
              { m.review_queue with queue := m.review_queue.queue
                  ++ [HumanReviewManager.newReviewRequest m content context now] }
              (HumanReviewManager.newReviewRequest m content context now).id
              ReviewStatus.timeout "system" none
              (now + m.timeout_seconds * microsPerSec)).1,
           HumanReviewManager.timeoutResult
             (HumanReviewManager.newReviewRequest m content context now).id
             m.timeout_seconds,
           now + m.timeout_seconds * microsPerSec) := hwait
    have hcomp : ReviewQueue.complete_review
        { m.review_queue with queue := m.review_queue.queue
            ++ [HumanReviewManager.newReviewRequest m content context now] }
        (HumanReviewManager.newReviewRequest m content context now).id
        ReviewStatus.timeout "system" none
        (now + m.timeout_seconds * microsPerSec)
        = ({ ({ m.review_queue with queue := m.review_queue.queue
              ++ [HumanReviewManager.newReviewRequest m content context now] })
              with
              queue := ({ m.review_queue with queue := m.review_queue.queue
                ++ [HumanReviewManager.newReviewRequest m content context
                      now] }).queue.eraseP
                  (fun x => decide (x.id
                    = (HumanReviewManager.newReviewRequest m content context
                        now).id))
              completed_reviews := dictInsert m.review_queue.completed_reviews
                (HumanReviewManager.newReviewRequest m content context now).id
                { HumanReviewManager.newReviewRequest m content context now with
                    status := ReviewStatus.timeout
                    reviewer := some "system"
                    review_notes := none
                    reviewed_at := some (now + m.timeout_seconds
                      * microsPerSec) } }, true) := by
      unfold ReviewQueue.complete_review
      rw [hfind]
    have hcheck := check_wait_eq m content context now (fun _ => none) he hreq
      hlen
    rw [hwait2, hcomp] at hcheck
    constructor
    · rw [hcheck]
      rfl
    · refine ⟨{ HumanReviewManager.newReviewRequest m content context now with
          status := ReviewStatus.timeout
          reviewer := some "system"
          review_notes := none
          reviewed_at := some (now + m.timeout_seconds * microsPerSec) },
        ?_, rfl, rfl⟩
      rw [hcheck]
      exact dictGet_dictInsert_self _ _ _

/-- C4 witness: a concrete enabled manager with a two-second timeout and no
reviewer action times out and records the TimedOut completion. -/
theorem C4_check_witness :
    (HumanReviewManager.check m0 "please delete this"
        { requires_human_review := none } 0 (fun _ => none)).2.1
      = HumanReviewManager.timeoutResult
          (HumanReviewManager.generate_request_id 5 0) 2 ∧
    ∃ req,
      dictGet (HumanReviewManager.check m0 "please delete this"
            { requires_human_review := none } 0
            (fun _ => none)).1.review_queue.completed_reviews
          (HumanReviewManager.generate_request_id 5 0)
        = some req ∧
      req.status = ReviewStatus.timeout ∧
      req.reviewer = some "system" :=
  C4_check_terminates_bounded.2.2 m0 "please delete this"
    { requires_human_review := none } 0 rfl (by decide) (by decide) (by decide)
